import Mathlib

/-!
# Verification of the legal-data-retrieval RAG pipeline (src/app.py)

Shallow embedding of the core pipeline of `src/app.py`:
ingestion (`download_and_process_drive_docs`), retrieval (the faiss
`IndexFlatL2` query step in `main`), grounded answer generation
(`call_gemini`) and the query orchestration in `main`.

Machine floats of the embedding model are abstracted as integer vectors
supplied by an arbitrary `embed : String → List Int` collaborator; the
Gemini HTTP call is abstracted by an `HttpOutcome` describing what the
network returned.  Everything else is translated directly from the
Python source.
-/

namespace LegalRAG

/-- Models Python `str.strip()` on the character list of a string:
drop whitespace from both ends. -/
def stripChars (l : List Char) : List Char :=
  ((l.dropWhile Char.isWhitespace).reverse.dropWhile Char.isWhitespace).reverse

/-- `pyStrip s` models `s.strip()` from `app.py` (`text.strip()`). -/
def pyStrip (s : String) : String :=
  ⟨stripChars s.data⟩

/-- A `Page` record as built in `download_and_process_drive_docs`
(src/app.py lines 79-84): `source` = drive file name, `page` = 1-based
page number, `content` = stripped extracted text, `link` = webViewLink. -/
structure Page where
  source : String
  page : Nat
  content : String
  link : String
deriving DecidableEq, Repr

/-- One Google-Drive PDF as seen by the ingestion loop: its name, its
webViewLink, and per page the result of `page.extract_text()`
(`none` models pypdf returning `None` for a page). -/
structure DriveDoc where
  name : String
  link : String
  pages : List (Option String)
deriving DecidableEq, Repr

/-- The per-page loop of `download_and_process_drive_docs`
(src/app.py lines 76-84): `for i, page in enumerate(reader.pages)`,
keep a page iff `text and len(text.strip()) > 20`, storing
`text.strip()` with page number `i + 1`.  `start` is the number of
pages already consumed, so the head page has index `start`. -/
def extractFrom (name link : String) (start : Nat) : List (Option String) → List Page
  | [] => []
  | t :: rest =>
    (match t with
     | none => []
     | some s =>
       if s ≠ "" ∧ 20 < (pyStrip s).length then
         [⟨name, start + 1, pyStrip s, link⟩]
       else []) ++ extractFrom name link (start + 1) rest

/-- Extraction of one document, as in src/app.py lines 76-84. -/
def extractDoc (d : DriveDoc) : List Page :=
  extractFrom d.name d.link 0 d.pages

/-- `download_and_process_drive_docs` (src/app.py lines 61-85): iterate
over the listed drive items; fetching/parsing an item is fallible
(`downloader.next_chunk()` / `PdfReader` can raise) and the loop has no
`try`/`except`, so the first exception propagates and aborts the run.
An input item is therefore `Except String DriveDoc`: either the fetched
and parsed document or the exception message. -/
def downloadAndProcess : List (Except String DriveDoc) → Except String (List Page)
  | [] => .ok []
  | it :: rest => do
    let d ← it
    let tail ← downloadAndProcess rest
    pure (extractDoc d ++ tail)

/-- Membership in `extractFrom`: exactly the pages whose stripped text
is longer than 20 characters survive, with 1-based numbering offset by
`start`. -/
theorem mem_extractFrom_iff (name link : String) (start : Nat)
    (pages : List (Option String)) (p : Page) :
    p ∈ extractFrom name link start pages ↔
      ∃ i t, pages[i]? = some (some t) ∧ (t ≠ "" ∧ 20 < (pyStrip t).length) ∧
        p = ⟨name, start + i + 1, pyStrip t, link⟩ := by
  induction pages generalizing start with
  | nil =>
    simp [extractFrom]
  | cons o rest ih =>
    simp only [extractFrom, List.mem_append]
    rw [ih (start + 1)]
    constructor
    · rintro (hhead | ⟨i, t, hget, hcond, hp⟩)
      · match o, hhead with
        | some s, hhead =>
          by_cases hc : s ≠ "" ∧ 20 < (pyStrip s).length
          · simp only [if_pos hc, List.mem_singleton] at hhead
            exact ⟨0, s, by simp, hc, hhead⟩
          · simp [if_neg hc] at hhead
      · exact ⟨i + 1, t, by simpa using hget, hcond, by
          simpa [Nat.add_assoc, Nat.add_comm, Nat.add_left_comm] using hp⟩
    · rintro ⟨i, t, hget, hcond, hp⟩
      match i with
      | 0 =>
        simp only [List.getElem?_cons_zero, Option.some.injEq] at hget
        subst hget
        left
        simp [if_pos hcond, hp]
      | i + 1 =>
        right
        exact ⟨i, t, by simpa using hget, hcond, by
          simpa [Nat.add_assoc, Nat.add_comm, Nat.add_left_comm] using hp⟩

/-! ## Retrieval: the faiss `IndexFlatL2` query step (src/app.py lines 286-293) -/

/-- Squared Euclidean distance between two vectors, the metric of
`faiss.IndexFlatL2`. -/
def sqDist (u v : List Int) : Int :=
  (List.zipWith (fun a b => (a - b) * (a - b)) u v).sum

/-- Insert index `i` into a distance-sorted index list, before the
first index of strictly larger distance, after equal-distance indices
already present: the stable insertion step of the k-NN model. -/
def insertByDist (dist : Nat → Int) (i : Nat) : List Nat → List Nat
  | [] => [i]
  | j :: rest => if dist i ≤ dist j then i :: j :: rest else j :: insertByDist dist i rest

/-- Stable sort of index lists by distance (insertion sort from the
right, so original order is kept on ties). -/
def sortByDist (dist : Nat → Int) : List Nat → List Nat
  | [] => []
  | i :: rest => insertByDist dist i (sortByDist dist rest)

/-- Model of `faiss.IndexFlatL2.search` label output for one query:
the database indices sorted by ascending squared L2 distance to `q`,
truncated to `k` labels; when `k` exceeds the number of database
vectors the label array is padded with `-1`, as faiss documents. -/
def knnLabels (xs : List (List Int)) (q : List Int) (k : Nat) : List Int :=
  let dist : Nat → Int := fun i => sqDist ((xs.getD i []) ) q
  ((sortByDist dist (List.range xs.length)).take k).map Int.ofNat
    ++ List.replicate (k - xs.length) (-1)

/-- Python list subscription `l[idx]` with an `int64` index as produced
by faiss: a negative index wraps around from the end
(`l[-1]` is the last element); out of range raises, modelled by
`none`. -/
def pythonGet (l : List Page) (idx : Int) : Option Page :=
  let j : Int := if idx < 0 then (l.length : Int) + idx else idx
  if h : 0 ≤ j ∧ j.toNat < l.length then some (l.get ⟨j.toNat, h.2⟩) else none

/-- The retrieval step of `main` (src/app.py lines 286-293): embed every
corpus page content, search the flat L2 index with the embedded query
and `k`, and build `matches = [corpus[idx] for idx in I[0]]`.  A `none`
result models the `IndexError` the comprehension would raise. -/
def searchMatches (corpus : List Page) (embed : String → List Int)
    (query : String) (k : Nat) : Option (List Page) :=
  let xs := corpus.map fun d => embed d.content
  let labels := knnLabels xs (embed query) k
  labels.mapM (pythonGet corpus)

/-! ## Grounded answer generation: `call_gemini` (src/app.py lines 87-106) -/

/-- Minimal JSON values, enough to model `res.json()` bodies. -/
inductive Json where
  | str : String → Json
  | num : Int → Json
  | arr : List Json → Json
  | obj : List (String × Json) → Json

/-- Dictionary subscription `j[key]`; anything but an object holding the
key models a raised `KeyError`/`TypeError`. -/
def Json.getField : Json → String → Option Json
  | .obj fields, key => fields.lookup key
  | _, _ => none

/-- Array subscription `j[i]`. -/
def Json.getIdx : Json → Nat → Option Json
  | .arr xs, i => xs[i]?
  | _, _ => none

/-- The final `['text']` access must yield a string. -/
def Json.asStr : Json → Option String
  | .str s => some s
  | _ => none

/-- `res.json()['candidates'][0]['content']['parts'][0]['text']`
(src/app.py line 105); `none` models any raised exception on that
chain. -/
def extractAnswerText (j : Json) : Option String :=
  ((((((j.getField "candidates").bind fun c => c.getIdx 0).bind
      fun c => c.getField "content").bind
      fun c => c.getField "parts").bind
      fun c => c.getIdx 0).bind
      fun c => c.getField "text").bind
      fun c => c.asStr

/-- What the `requests.post` call in `call_gemini` did: it either raised
(timeout, connection error) or produced a response with a status code
and a body; `body = none` models a body that is not valid JSON
(`res.json()` raises). -/
inductive HttpOutcome where
  | timeout : HttpOutcome
  | response (status : Nat) (body : Option Json) : HttpOutcome

/-- The fixed error string of `call_gemini` (src/app.py line 106). -/
def geminiErrorMsg : String :=
  "Technical error: Could not reach the AI Intelligence engine."

/-- `sys_instr` of `call_gemini` (src/app.py lines 91-95); the Python
triple-quoted literal keeps the four-space indentation of its
continuation lines. -/
def sysInstr : String :=
  "You are a strictly Bilingual Legal AI.\n    RULE 1: Identify the language of the User Query.\n    RULE 2: Respond ONLY in the language of the query. If asked in English, answer in English. If Arabic, answer in Arabic.\n    RULE 3: Use the provided context to answer. Translate the meaning accurately if languages differ.\n    RULE 4: Be professional and concise."

/-- `user_prompt` of `call_gemini` (src/app.py line 97). -/
def userPrompt (query context : String) : String :=
  "Based on the following context, answer the query.\n\nContext:\n" ++ context
    ++ "\n\nUser Query: " ++ query
    ++ "\n\nREMEMBER: Respond in the language of the query."

/-- The payload built in `call_gemini` (src/app.py lines 99-102),
keeping the two texts that reach the generation service. -/
structure GeminiRequest where
  userText : String
  systemInstruction : String
deriving DecidableEq

/-- Request construction of `call_gemini`. -/
def buildRequest (query context : String) : GeminiRequest :=
  ⟨userPrompt query context, sysInstr⟩

/-- `call_gemini` (src/app.py lines 87-106): post the payload with a
25-second timeout, extract the answer text from the JSON body, and on
any exception return the fixed error string.  The status code of the
response is never inspected. -/
def callGemini (_query _context : String) (out : HttpOutcome) : String :=
  match out with
  | .timeout => geminiErrorMsg
  | .response _status body =>
    match body.bind extractAnswerText with
    | some t => t
    | none => geminiErrorMsg

/-! ## The orchestrator: session state and the query path of `main` -/

/-- One chat message as stored in `st.session_state.chat_history`:
user messages carry no metadata (`msg.get("metadata", [])` yields `[]`),
assistant messages carry the match list. -/
structure Msg where
  role : String
  content : String
  metadata : List Page
deriving DecidableEq

/-- The session state the pipeline reads and writes
(src/app.py lines 110-112): the corpus and the chat history. -/
structure SessionState where
  corpus : List Page
  chat_history : List Msg
deriving DecidableEq

/-- The sync action of the sidebar (src/app.py lines 234-238): on a
successful run the corpus is assigned the fresh extraction result; if
the run raises, the assignment never happens and the state is kept. -/
def syncAction (st : SessionState) (items : List (Except String DriveDoc)) :
    SessionState :=
  match downloadAndProcess items with
  | .ok pages => { st with corpus := pages }
  | .error _ => st

/-- `ctx_str` built in `main` (src/app.py line 296): the per-match
context entry. -/
def ctxEntry (m : Page) : String :=
  "Source: " ++ m.source ++ " P." ++ toString m.page ++ "\n" ++ m.content

/-- Python `sep.join(list)`. -/
def pyJoin (sep : String) : List String → String
  | [] => ""
  | [a] => a
  | a :: rest => a ++ sep ++ pyJoin sep rest

/-- `ctx_str = "\n\n".join(...)` (src/app.py line 296). -/
def ctxStr (ms : List Page) : String :=
  pyJoin "\n\n" (ms.map ctxEntry)

/-- Outcome of one submitted query (src/app.py lines 277-304):
`noDocs` is the `st.warning`/`st.stop()` short-circuit on an empty
corpus, `indexError` an unhandled exception from `corpus[idx]`, and
`answered` the full path through retrieval and generation. -/
inductive QueryResult where
  | noDocs (st : SessionState)
  | indexError (st : SessionState)
  | answered (st : SessionState) (ms : List Page) (answer : String)
deriving DecidableEq

/-- The query path of `main` (src/app.py lines 277-304): append the
user message, short-circuit when the corpus is empty, otherwise embed
the corpus, search with `k = 3`, call the generation service on the
joined context, and append the assistant message whose metadata is the
match list.  `embed` abstracts the sentence-transformer collaborator
and `out` the network outcome of the Gemini call. -/
def handleQuery (embed : String → List Int) (out : HttpOutcome)
    (st : SessionState) (query : String) : QueryResult :=
  let st1 : SessionState :=
    { st with chat_history := st.chat_history ++ [⟨"user", query, []⟩] }
  if st1.corpus = [] then
    .noDocs st1
  else
    match searchMatches st1.corpus embed query 3 with
    | none => .indexError st1
    | some ms =>
      let answer := callGemini query (ctxStr ms) out
      .answered
        { st1 with chat_history := st1.chat_history ++ [⟨"assistant", answer, ms⟩] }
        ms answer

/-! ## Concrete inputs used by witnesses and counterexamples -/

/-- A corpus page with 25 characters of content. -/
def pageA : Page := ⟨"A.pdf", 1, "Termination needs notice.", "linkA"⟩

/-- A corpus page with 30 characters of content. -/
def pageB : Page := ⟨"B.pdf", 1, "The notice period is 30 days.", "linkB"⟩

/-- A concrete embedding collaborator: one-dimensional vectors given by
text length. -/
def embedEx : String → List Int := fun s => [(s.length : Int)]

/-- A drive document with one page of long extractable text. -/
def docB : DriveDoc :=
  ⟨"B.pdf", "linkB", [some "This clause has well over twenty characters."]⟩

/-- The page `docB` extraction stores. -/
def pageBext : Page :=
  ⟨"B.pdf", 1, "This clause has well over twenty characters.", "linkB"⟩

/-- A drive document whose first page is short (below the 20-character
threshold) and whose second page is long. -/
def docMixed : DriveDoc :=
  ⟨"mix.pdf", "linkM",
    [some "short", some "Another clause with well over twenty characters."]⟩

/-- A well-formed generation-service body whose answer text is
`"hello"`. -/
def goodBody : Json :=
  .obj [("candidates", .arr [.obj [("content",
    .obj [("parts", .arr [.obj [("text", .str "hello")]])])]])]

/-! ## Claims -/

/-- C1: the spec claims retrieval returns exactly `min(k, n)` matches.
The code violates this: on a two-page corpus with the fixed `k = 3`,
`faiss` pads the missing label with `-1` and Python `corpus[-1]` wraps
around to the last page, so three matches come back with the last page
duplicated, where the claim requires `min(3, 2) = 2` matches. -/
theorem c1_retrieval_pads_beyond_corpus :
    searchMatches [pageA, pageB] embedEx "q" 3 = some [pageA, pageB, pageB] ∧
    ([pageA, pageB, pageB] : List Page).length ≠ min 3 [pageA, pageB].length := by
  refine ⟨by decide, by decide⟩

/-- C2 counterexample: the claim says a Page record is omitted only
when the trimmed text is empty.  The text `"hello"` trims to a
non-empty string, yet extraction stores nothing (the code also drops
every page of trimmed length 1..20). -/
theorem c2_nonempty_short_text_dropped :
    pyStrip "hello" ≠ "" ∧
    extractDoc ⟨"A.pdf", "linkA", [some "hello"]⟩ = [] := by
  constructor
  · decide
  · decide

/-- C2 (amended): extraction produces a Page record for a page exactly
when its stripped text is non-empty AND longer than 20 characters; the
record then has the stripped text as content, the 1-based page number,
and the document name and link.  Pages of trimmed length 1..20 are
dropped exactly like empty ones. -/
theorem c2_page_content_characterization (d : DriveDoc) (p : Page) :
    p ∈ extractDoc d ↔
      ∃ i t, d.pages[i]? = some (some t) ∧
        (t ≠ "" ∧ 20 < (pyStrip t).length) ∧
        p = ⟨d.name, i + 1, pyStrip t, d.link⟩ := by
  have h := mem_extractFrom_iff d.name d.link 0 d.pages p
  simpa using h

/-- C2 witness: the characterization applied to `docB`, whose single
long page is stored with stripped content. -/
theorem c2_page_content_characterization_witness :
    pageBext ∈ extractDoc docB :=
  (c2_page_content_characterization docB pageBext).mpr
    ⟨0, "This clause has well over twenty characters.", by decide,
      ⟨by decide, by decide⟩, by decide⟩

/-- C4: ingestion replaces the corpus wholesale — after a successful
sync over document set `items`, the corpus equals exactly the extracted
pages, independently of any prior corpus contents. -/
theorem c4_sync_replaces_corpus (st : SessionState)
    (items : List (Except String DriveDoc)) (pages : List Page)
    (h : downloadAndProcess items = .ok pages) :
    (syncAction st items).corpus = pages := by
  simp [syncAction, h]

/-- C4 witness: syncing `docB` over a session that already holds
`pageA` leaves exactly `docB`'s page, no residue. -/
theorem c4_sync_replaces_corpus_witness :
    (syncAction ⟨[pageA], []⟩ [Except.ok docB]).corpus = [pageBext] :=
  c4_sync_replaces_corpus ⟨[pageA], []⟩ [Except.ok docB] [pageBext] rfl

/-- C5 counterexample: the claim says a below-threshold page is stored
with OCR-derived content when OCR is available.  The code has no OCR
path at all: a page whose stripped text is non-empty but at most 20
characters long is dropped entirely — extraction stores no Page record
whatsoever for it, from any path. -/
theorem c5_short_page_yields_no_record :
    pyStrip "scanned" ≠ "" ∧ (pyStrip "scanned").length ≤ 20 ∧
    extractDoc ⟨"scan.pdf", "linkS", [some "scanned"]⟩ = [] := by
  refine ⟨by decide, by decide, by decide⟩

/-- C5 (amended): a page whose directly extracted stripped text is at
or below the 20-character threshold contributes no Page record at all:
there is no OCR fallback in the code, so no stored content can come
from one. -/
theorem c5_short_pages_contribute_nothing (d : DriveDoc) (i : Nat) (t : String)
    (hget : d.pages[i]? = some (some t)) (hshort : (pyStrip t).length ≤ 20) :
    ∀ p ∈ extractDoc d, p.page ≠ i + 1 := by
  intro p hp
  rw [extractDoc, mem_extractFrom_iff] at hp
  obtain ⟨j, t', hget', ⟨_, hlong⟩, hpeq⟩ := hp
  subst hpeq
  simp only [Nat.zero_add]
  intro hcontra
  have hji : j = i := by omega
  subst hji
  rw [hget] at hget'
  obtain rfl : t = t' := by
    simpa using hget'
  omega

/-- C5 witness: in `docMixed` the short first page contributes no
record — the only stored page is page 2. -/
theorem c5_short_pages_contribute_nothing_witness :
    (⟨"mix.pdf", 2,
      "Another clause with well over twenty characters.", "linkM"⟩ : Page).page ≠ 1 :=
  c5_short_pages_contribute_nothing docMixed 0 "short" (by decide) (by decide)
    ⟨"mix.pdf", 2, "Another clause with well over twenty characters.", "linkM"⟩
    (by decide)

/-- C6 counterexample: the claim says a fetch failure for one document
does not abort ingestion of the others.  With a failing first item and
a healthy second one, the run returns the failure and the healthy
document's page (which extraction would produce) is not returned. -/
theorem c6_single_failure_aborts_run :
    downloadAndProcess [Except.error "fetch failed", Except.ok docB] =
      .error "fetch failed" ∧
    extractDoc docB ≠ [] := by
  constructor
  · rfl
  · decide

/-- C6 (amended): the ingestion loop has no per-document error guard:
if any item fails to fetch or parse, the whole run returns that
failure and no document's pages are returned. -/
theorem c6_any_failure_aborts (items : List (Except String DriveDoc))
    (h : ∃ e, Except.error e ∈ items) :
    ∃ e, downloadAndProcess items = .error e := by
  induction items with
  | nil => simp at h
  | cons it rest ih =>
    obtain ⟨e, he⟩ := h
    cases it with
    | error e0 => exact ⟨e0, rfl⟩
    | ok d =>
      have hrest : ∃ e, Except.error e ∈ rest := ⟨e, by simpa using he⟩
      obtain ⟨e2, h2⟩ := ih hrest
      refine ⟨e2, ?_⟩
      have hunfold : downloadAndProcess (Except.ok d :: rest) =
          Except.bind (downloadAndProcess rest)
            (fun tail => Except.ok (extractDoc d ++ tail)) := rfl
      rw [hunfold, h2]
      rfl

/-- C6 witness: a failure in the second item still aborts the whole
run. -/
theorem c6_any_failure_aborts_witness :
    ∃ e, downloadAndProcess [Except.ok docB, Except.error "boom"] = .error e :=
  c6_any_failure_aborts [Except.ok docB, Except.error "boom"] ⟨"boom", by simp⟩

/-- C3 counterexample: the claim says a non-success response yields the
fixed error string.  `call_gemini` never inspects the status code: a
status-500 response whose body happens to carry the expected
`candidates` shape is returned as the answer, not as the error
string. -/
theorem c3_status_code_never_checked :
    callGemini "q" "ctx" (.response 500 (some goodBody)) = "hello" ∧
    callGemini "q" "ctx" (.response 500 (some goodBody)) ≠ geminiErrorMsg ∧
    500 ≠ 200 := by
  refine ⟨rfl, by decide, by decide⟩

/-- C3 (amended): the generation call never raises — it always returns
either the text extracted from the body or the fixed error string; it
returns the fixed error string on timeout and on any body from which
the `candidates` chain cannot be extracted (the status code itself is
never inspected); and the assistant message recorded by the
orchestrator carries exactly the MatchSet that was passed to
generation as its citations. -/
theorem c3_failsoft_and_citations (q c : String) (out : HttpOutcome)
    (embed : String → List Int) (st : SessionState) :
    (out = .timeout → callGemini q c out = geminiErrorMsg) ∧
    (∀ status body, out = .response status body →
      body.bind extractAnswerText = none → callGemini q c out = geminiErrorMsg) ∧
    (callGemini q c out = geminiErrorMsg ∨
      ∃ status body t, out = .response status body ∧
        body.bind extractAnswerText = some t ∧ callGemini q c out = t) ∧
    (∀ st1 ms ans, handleQuery embed out st q = .answered st1 ms ans →
      st1.chat_history =
        st.chat_history ++ [⟨"user", q, []⟩, ⟨"assistant", ans, ms⟩] ∧
      ans = callGemini q (ctxStr ms) out) := by
  refine ⟨?_, ?_, ?_, ?_⟩
  · rintro rfl; rfl
  · rintro status body rfl hnone
    simp [callGemini, hnone]
  · cases out with
    | timeout => exact Or.inl rfl
    | response status body =>
      cases hbody : body.bind extractAnswerText with
      | none => exact Or.inl (by simp [callGemini, hbody])
      | some t =>
        exact Or.inr ⟨status, body, t, rfl, hbody, by simp [callGemini, hbody]⟩
  · intro st1 ms ans h
    rw [handleQuery] at h
    by_cases hc : ({ st with chat_history := st.chat_history ++ [⟨"user", q, []⟩] }
        : SessionState).corpus = []
    · rw [if_pos hc] at h
      cases h
    · rw [if_neg hc] at h
      cases hs : searchMatches
          ({ st with chat_history := st.chat_history ++ [⟨"user", q, []⟩] }
            : SessionState).corpus embed q 3 with
      | none => rw [hs] at h; cases h
      | some found =>
        rw [hs] at h
        cases h
        exact ⟨by simp, rfl⟩

/-- C3 witness: the theorem applied on a concrete timeout outcome. -/
theorem c3_failsoft_and_citations_witness :
    callGemini "q" "c" HttpOutcome.timeout = geminiErrorMsg :=
  (c3_failsoft_and_citations "q" "c" HttpOutcome.timeout embedEx ⟨[], []⟩).1 rfl

/-- C7: a query against an empty corpus short-circuits into the
no-documents state right after the user message is recorded; the
result does not depend on the embedding collaborator or on the
generation service, so neither the embedding index nor the retrieval
step is ever invoked. -/
theorem c7_empty_corpus_short_circuits (embed : String → List Int)
    (out : HttpOutcome) (st : SessionState) (q : String)
    (h : st.corpus = []) :
    handleQuery embed out st q =
      .noDocs { st with chat_history := st.chat_history ++ [⟨"user", q, []⟩] } := by
  rw [handleQuery]
  simp [h]

/-- C7 witness: the short-circuit on a concrete empty session. -/
theorem c7_empty_corpus_short_circuits_witness :
    handleQuery embedEx HttpOutcome.timeout ⟨[], []⟩ "hi" =
      .noDocs ⟨[], [⟨"user", "hi", []⟩]⟩ :=
  c7_empty_corpus_short_circuits embedEx HttpOutcome.timeout ⟨[], []⟩ "hi" rfl

/-- C9: every Page record a successful ingestion run returns has as
content some stripped text of length strictly greater than 20
characters — the corpus never holds a short (even if non-empty)
page. -/
theorem c9_ingested_pages_longer_than_20 (items : List (Except String DriveDoc))
    (pages : List Page) (h : downloadAndProcess items = .ok pages) :
    ∀ p ∈ pages, (∃ t, p.content = pyStrip t) ∧ 20 < p.content.length := by
  induction items generalizing pages with
  | nil =>
    obtain rfl : ([] : List Page) = pages := by
      simpa [downloadAndProcess] using h
    simp
  | cons it rest ih =>
    cases it with
    | error e =>
      have hunfold : downloadAndProcess (Except.error e :: rest) =
          Except.error e := rfl
      rw [hunfold] at h
      cases h
    | ok d =>
      have hunfold : downloadAndProcess (Except.ok d :: rest) =
          Except.bind (downloadAndProcess rest)
            (fun tail => Except.ok (extractDoc d ++ tail)) := rfl
      rw [hunfold] at h
      cases hrest : downloadAndProcess rest with
      | error e => rw [hrest] at h; cases h
      | ok tail =>
        rw [hrest] at h
        obtain rfl : extractDoc d ++ tail = pages := by
          simpa [Except.bind] using h
        intro p hp
        rcases List.mem_append.mp hp with hd | ht
        · rw [extractDoc, mem_extractFrom_iff] at hd
          obtain ⟨i, t, _, ⟨_, hlong⟩, rfl⟩ := hd
          exact ⟨⟨t, rfl⟩, hlong⟩
        · exact ih tail hrest p ht

/-- C9 witness: the invariant applied to the page ingested from
`docB`. -/
theorem c9_ingested_pages_longer_than_20_witness :
    (∃ t, pageBext.content = pyStrip t) ∧ 20 < pageBext.content.length :=
  c9_ingested_pages_longer_than_20 [Except.ok docB] [pageBext] rfl pageBext
    (by simp)

/-- C10: submitting a query while the corpus is empty appends exactly
one message — a user message holding the query text — before the
short-circuit, appends no assistant message, and leaves the corpus
unchanged. -/
theorem c10_empty_corpus_frame (embed : String → List Int)
    (out : HttpOutcome) (st : SessionState) (q : String)
    (h : st.corpus = []) :
    ∃ st1, handleQuery embed out st q = .noDocs st1 ∧
      st1.chat_history = st.chat_history ++ [⟨"user", q, []⟩] ∧
      st1.corpus = st.corpus := by
  refine ⟨{ st with chat_history := st.chat_history ++ [⟨"user", q, []⟩] }, ?_, rfl, rfl⟩
  rw [handleQuery]
  simp [h]

/-- C10 witness: the frame property on a concrete empty session with a
non-empty prior history. -/
theorem c10_empty_corpus_frame_witness :
    ∃ st1, handleQuery embedEx HttpOutcome.timeout
        ⟨[], [⟨"user", "earlier", []⟩]⟩ "hi" = .noDocs st1 ∧
      st1.chat_history = [⟨"user", "earlier", []⟩] ++ [⟨"user", "hi", []⟩] ∧
      st1.corpus = [] :=
  c10_empty_corpus_frame embedEx HttpOutcome.timeout
    ⟨[], [⟨"user", "earlier", []⟩]⟩ "hi" rfl

/-- The language-matching directive both prompt texts must carry. -/
def langDirective : String := "in the language of the query"

set_option maxRecDepth 4000 in
/-- C8: the outgoing generation request is built from the match set and
the query alone: the context block is the blank-line-separated join, in
MatchSet order, of one `Source: <name> P.<page>` header plus content
per match; the user payload embeds that context block and the literal
query text; and the language-matching directive occurs literally in
both the system instruction and the user payload. -/
theorem c8_request_construction (q : String) (ms : List Page) :
    (buildRequest q (ctxStr ms)).systemInstruction = sysInstr ∧
    (buildRequest q (ctxStr ms)).userText = userPrompt q (ctxStr ms) ∧
    ctxStr [] = "" ∧
    (∀ m, ctxStr [m] = ctxEntry m) ∧
    (∀ m m2 rest, ctxStr (m :: m2 :: rest) =
      ctxEntry m ++ "\n\n" ++ ctxStr (m2 :: rest)) ∧
    (∀ m, ctxEntry m =
      "Source: " ++ m.source ++ " P." ++ toString m.page ++ "\n" ++ m.content) ∧
    List.IsInfix langDirective.data sysInstr.data ∧
    List.IsInfix langDirective.data (buildRequest q (ctxStr ms)).userText.data ∧
    List.IsInfix (ctxStr ms).data (buildRequest q (ctxStr ms)).userText.data ∧
    List.IsInfix q.data (buildRequest q (ctxStr ms)).userText.data := by
  refine ⟨rfl, rfl, rfl, fun m => rfl, fun m m2 rest => rfl, fun m => rfl,
    by decide, ?_, ?_, ?_⟩
  · have h1 : List.IsInfix langDirective.data
        ("\n\nREMEMBER: Respond in the language of the query." : String).data := by
      decide
    have h2 : List.IsInfix
        ("\n\nREMEMBER: Respond in the language of the query." : String).data
        (buildRequest q (ctxStr ms)).userText.data :=
      ⟨("Based on the following context, answer the query.\n\nContext:\n" : String).data
          ++ (ctxStr ms).data ++ ("\n\nUser Query: " : String).data ++ q.data,
        [], by simp only [buildRequest, userPrompt, String.data_append,
          List.append_assoc, List.append_nil]⟩
    exact h1.trans h2
  · exact ⟨("Based on the following context, answer the query.\n\nContext:\n" : String).data,
      ("\n\nUser Query: " : String).data ++ q.data
        ++ ("\n\nREMEMBER: Respond in the language of the query." : String).data,
      by simp only [buildRequest, userPrompt, String.data_append, List.append_assoc]⟩
  · exact ⟨("Based on the following context, answer the query.\n\nContext:\n" : String).data
        ++ (ctxStr ms).data ++ ("\n\nUser Query: " : String).data,
      ("\n\nREMEMBER: Respond in the language of the query." : String).data,
      by simp only [buildRequest, userPrompt, String.data_append, List.append_assoc]⟩

end LegalRAG
